import Mathlib

/-!
Verification of the brightness calibration and transition logic of
`brightness_server.py` (iphone-autobrightness-sync).

The Python code is shallowly embedded: pure numeric computations over Python
floats are modelled over `ℚ` (and over `ℝ` where the source uses `pow`/`log10`),
Python `int(...)` truncation is `ratTrunc`, Python `//` floor division is
`Int.fdiv`, and the fallible OS brightness calls are modelled by explicit
result/environment values with `Except` for raised exceptions.
-/

/-- Python `int(q)` on a rational: truncation toward zero. -/
def ratTrunc (q : ℚ) : ℤ := if 0 ≤ q then ⌊q⌋ else ⌈q⌉

/-- Python `int(r)` on a real (float modelled as a real): truncation toward zero. -/
noncomputable def realTrunc (r : ℝ) : ℤ := if 0 ≤ r then ⌊r⌋ else ⌈r⌉

/-- `CONFIG['display_calibration']['calibration_lut']`: the lookup table
`(iphone fraction, laptop fraction)` pairs, polymorphic so it can be read in
`ℚ` or `ℝ`. -/
def calibration_lut {α : Type} [LinearOrderedField α] : List (α × α) :=
  [(0, 5/100), (5/100, 10/100), (1/10, 18/100), (2/10, 32/100), (3/10, 45/100),
   (4/10, 58/100), (5/10, 68/100), (6/10, 75/100), (7/10, 82/100), (8/10, 88/100),
   (9/10, 92/100), (1, 95/100)]

/-- The `for i in range(len(lut) - 1)` loop of `calibrate_brightness` in `lut`
mode: return the interpolated value of the first segment `[x1, x2]` bracketing
`x` (the `break`), `none` when the loop falls through to its `else`.
The code computes `ratio = (x - x1) / (x2 - x1) if x2 != x1 else 0` and
`y1 + ratio * (y2 - y1)`. -/
def lutInterp {α : Type} [LinearOrderedField α] : List (α × α) → α → Option α
  | p1 :: p2 :: rest, x =>
    if p1.1 ≤ x ∧ x ≤ p2.1 then
      some (p1.2 + (if p2.1 ≠ p1.1 then (x - p1.1) / (p2.1 - p1.1) else 0) * (p2.2 - p1.2))
    else lutInterp (p2 :: rest) x
  | _, _ => none

/-- The full `lut` branch of `calibrate_brightness`: the loop, and on
fall-through (`for ... else`) `lut[0][1]` when `x <= lut[0][0]`, else
`lut[-1][1]`. -/
def calibrate_lut {α : Type} [LinearOrderedField α] (lut : List (α × α)) (x : α) : α :=
  match lutInterp lut x with
  | some y => y
  | none =>
    if x ≤ (lut.head?.getD (0, 0)).1 then (lut.head?.getD (0, 0)).2
    else (lut.getLast?.getD (0, 0)).2

/-- `max(0.0, min(1.0, iphone_brightness))`. -/
def clamp01 {α : Type} [LinearOrderedField α] (x : α) : α := max 0 (min 1 x)

/-- `BrightnessController.calibrate_brightness` with the configured
`brightness_curve = 'lut'`: clamp the input to `[0,1]`, interpolate in the
lookup table, scale to a percentage, clamp to
`[min_brightness, max_brightness] = [5, 95]` and convert with `int(...)`. -/
def calibrate_brightness (iphone_brightness : ℚ) : ℤ :=
  ratTrunc (max 5 (min 95 (calibrate_lut calibration_lut (clamp01 iphone_brightness) * 100)))

/-- The `brightness_curve` configuration values of `CONFIG['display_calibration']`. -/
inductive BrightnessCurve where
  | lut
  | perceptual
  | logarithmic
  | linear
deriving DecidableEq

/-- `BrightnessController.calibrate_brightness` for an arbitrary configured
curve mode, the float computations modelled over `ℝ`: `iphone_max_nits = 625`,
`laptop_max_nits = 300`, both gammas `2.2`, final clamp to `[5, 95]`. -/
noncomputable def calibrate_brightness_curve (curve : BrightnessCurve)
    (iphone_brightness : ℝ) : ℤ :=
  let x := clamp01 iphone_brightness
  let laptop_brightness : ℝ :=
    match curve with
    | .lut => calibrate_lut calibration_lut x
    | .perceptual =>
      let iphone_nits := 625 * x ^ (2.2 : ℝ)
      let target_nits := min iphone_nits 300
      (target_nits / 300) ^ (1 / (2.2 : ℝ))
    | .logarithmic =>
      if 0 < x then Real.logb 10 (x * 9 + 1) * (300 / 625) else 0
    | .linear => x * (1 / (300 / 625))
  realTrunc (max 5 (min 95 (laptop_brightness * 100)))

/-- `CONFIG['brightness_ranges']`: named level → `{min, max}` percentage range,
in the dict's insertion order. -/
def brightness_ranges : List (String × ℤ × ℤ) :=
  [("very_dark", 5, 15), ("dark", 15, 30), ("dim", 30, 50),
   ("normal", 50, 70), ("bright", 70, 90), ("very_bright", 90, 100)]

/-- Python dict lookup `CONFIG['brightness_ranges'][level]` guarded by
`level in CONFIG['brightness_ranges']`. -/
def lookupRange (level : String) : List (String × ℤ × ℤ) → Option (ℤ × ℤ)
  | [] => none
  | (name, mn, mx) :: rest => if level = name then some (mn, mx) else lookupRange level rest

/-- `BrightnessController.get_brightness_for_level`: the midpoint
`(min + max) // 2` (Python floor division) of the level's range, `50` when the
level is not configured. -/
def get_brightness_for_level (level : String) : ℤ :=
  match lookupRange level brightness_ranges with
  | some (mn, mx) => Int.fdiv (mn + mx) 2
  | none => 50

/-- `CONFIG['time_based_brightness']`: `(period, start, end, level)` windows in
the dict's insertion order, times as seconds since midnight (a
`datetime.time` comparison is exactly the comparison of seconds since
midnight). -/
def time_based_brightness_config : List (String × ℕ × ℕ × String) :=
  [("night", 22 * 3600, 6 * 3600, "very_dark"),
   ("evening", 18 * 3600, 22 * 3600, "dim"),
   ("morning", 6 * 3600, 9 * 3600, "normal"),
   ("day", 9 * 3600, 18 * 3600, "bright")]

/-- The window-testing loop of `get_time_based_brightness`: the `night` period
matches as a wrap-around interval (`now >= start or now <= end`), every other
period as `start <= now <= end`; the first match returns its level's
brightness, fall-through returns the `'normal'` level. -/
def timeBasedGo (now : ℕ) : List (String × ℕ × ℕ × String) → ℤ
  | [] => get_brightness_for_level "normal"
  | (period, start, «end», level) :: rest =>
    if period = "night" then
      if start ≤ now ∨ now ≤ «end» then get_brightness_for_level level
      else timeBasedGo now rest
    else
      if start ≤ now ∧ now ≤ «end» then get_brightness_for_level level
      else timeBasedGo now rest

/-- `BrightnessController.get_time_based_brightness`: `now` is the wall-clock
time as seconds since midnight. -/
def get_time_based_brightness (now : ℕ) : ℤ :=
  timeBasedGo now time_based_brightness_config

/-- `CONFIG['transition_steps']`. -/
def transition_steps : ℕ := 10

/-- The intermediate values applied by the loop of
`_smooth_brightness_change`: `int(current + step_size * (i + 1))` clamped to
`[1, 100]`, with `step_size = (target - current) / steps` a Python float
(true division), modelled in `ℚ`. -/
def smoothSteps (current target : ℤ) (steps : ℕ) : List ℤ :=
  (List.range steps).map fun (i : ℕ) =>
    max 1 (min 100 (ratTrunc ((current : ℚ) + ((target : ℚ) - (current : ℚ)) / (steps : ℚ) * ((i : ℚ) + 1))))

/-- The full sequence of brightness values `_smooth_brightness_change` passes
to `sbc.set_brightness`: nothing when the freshly read `current` equals the
target, otherwise the clamped intermediate steps followed by the exact
target. -/
def smoothApplied (current target : ℤ) : List ℤ :=
  if current = target then []
  else smoothSteps current target transition_steps ++ [target]

/-- The possible results of `sbc.get_brightness()` as used by
`get_current_brightness`: an exception, a single value, a list, or `None`. -/
inductive SbcGet where
  | err
  | intVal (v : ℤ)
  | listVal (l : List ℤ)
  | noneVal

/-- `BrightnessController.get_current_brightness`: a list yields its first
element (`50` when empty), a falsy value (`None`, or `0` via `brightness or
50`) yields `50`, an exception is caught and yields `50`. -/
def get_current_brightness : SbcGet → ℤ
  | .err => 50
  | .intVal v => if v = 0 then 50 else v
  | .listVal [] => 50
  | .listVal (v :: _) => v
  | .noneVal => 50

/-- The OS environment a brightness-set call runs against: what
`sbc.get_brightness()` yields and whether `sbc.set_brightness` raises. -/
structure OsEnv where
  readResult : SbcGet
  setRaises : Bool

/-- `BrightnessController._smooth_brightness_change` against environment
`env`, with stored field `current_brightness = st`: returns the new
`current_brightness` and the list of values passed to `sbc.set_brightness`,
or `Except.error` when a set call raises (the field is only assigned after
the final set, so it is unchanged on an exception and on the early return). -/
def smooth_brightness_change (env : OsEnv) (st target : ℤ) : Except Unit (ℤ × List ℤ) :=
  let current := get_current_brightness env.readResult
  if current = target then .ok (st, [])
  else if env.setRaises then .error ()
  else .ok (target, smoothApplied current target)

/-- `CONFIG['smooth_transition']`. -/
def smooth_transition_config : Bool := true

/-- `BrightnessController.set_brightness`: clamp the target to `[1, 100]`,
then either run the smooth transition or set directly; an exception from a
set call is logged and re-raised (`raise`). Returns the new
`current_brightness` and the applied values. -/
def set_brightness (env : OsEnv) (st target0 : ℤ) (smooth : Bool) : Except Unit (ℤ × List ℤ) :=
  let target := max 1 (min 100 target0)
  if smooth && smooth_transition_config then
    smooth_brightness_change env st target
  else
    if env.setRaises then .error () else .ok (target, [target])

/-- The numeric-`brightness` branch of the `POST /brightness` route: a value
`<= 1` is passed to calibration directly, a value `> 1` is divided by 100
first. -/
def route_brightness_value (brightness : ℚ) : ℤ :=
  if brightness ≤ 1 then calibrate_brightness brightness
  else calibrate_brightness (brightness / 100)

/-! ### Properties of the lookup-table interpolation -/

/-- Well-formedness of a lookup table: strictly increasing breakpoints and
non-decreasing targets. -/
def LutSorted (l : List (ℚ × ℚ)) : Prop :=
  l.Pairwise fun p q => p.1 < q.1 ∧ p.2 ≤ q.2

lemma calibration_lut_sorted : LutSorted calibration_lut := by
  unfold LutSorted calibration_lut
  norm_num [List.pairwise_cons]

lemma lutInterp_some_head_le (l : List (ℚ × ℚ)) : ∀ (p : ℚ × ℚ) (x v : ℚ),
    LutSorted (p :: l) → lutInterp (p :: l) x = some v → p.1 ≤ x := by
  induction l with
  | nil => intro p x v _ h; simp [lutInterp] at h
  | cons q rest ih =>
    intro p x v hs h
    rw [lutInterp] at h
    by_cases hbr : p.1 ≤ x ∧ x ≤ q.1
    · exact hbr.1
    · rw [if_neg hbr] at h
      have hq := ih q x v hs.of_cons h
      have hpq : p.1 < q.1 := ((List.pairwise_cons.mp hs).1 q (by simp)).1
      linarith

lemma lutInterp_some_ge_headSnd (l : List (ℚ × ℚ)) : ∀ (p : ℚ × ℚ) (x v : ℚ),
    LutSorted (p :: l) → lutInterp (p :: l) x = some v → p.2 ≤ v := by
  induction l with
  | nil => intro p x v _ h; simp [lutInterp] at h
  | cons q rest ih =>
    intro p x v hs h
    have hpq : p.1 < q.1 ∧ p.2 ≤ q.2 := (List.pairwise_cons.mp hs).1 q (by simp)
    rw [lutInterp] at h
    by_cases hbr : p.1 ≤ x ∧ x ≤ q.1
    · rw [if_pos hbr, if_pos (by exact ne_of_gt hpq.1)] at h
      have hden : (0 : ℚ) < q.1 - p.1 := by linarith [hpq.1]
      have hrat : 0 ≤ (x - p.1) / (q.1 - p.1) := div_nonneg (by linarith [hbr.1]) hden.le
      have hmul : 0 ≤ (x - p.1) / (q.1 - p.1) * (q.2 - p.2) :=
        mul_nonneg hrat (by linarith [hpq.2])
      rw [Option.some.injEq] at h
      linarith [hmul]
    · rw [if_neg hbr] at h
      have := ih q x v hs.of_cons h
      linarith [hpq.2]

/-- `lut[-1][0]` with default. -/
def lutLastFst (l : List (ℚ × ℚ)) : ℚ := (l.getLast?.getD (0, 0)).1

/-- `lut[-1][1]` with default. -/
def lutLastSnd (l : List (ℚ × ℚ)) : ℚ := (l.getLast?.getD (0, 0)).2

lemma headSnd_le_lutLastSnd (l : List (ℚ × ℚ)) : ∀ (p : ℚ × ℚ),
    LutSorted (p :: l) → p.2 ≤ lutLastSnd (p :: l) := by
  induction l with
  | nil => intro p _; simp [lutLastSnd]
  | cons q rest ih =>
    intro p hs
    have hpq : p.1 < q.1 ∧ p.2 ≤ q.2 := (List.pairwise_cons.mp hs).1 q (by simp)
    have := ih q hs.of_cons
    rw [lutLastSnd] at *
    rw [List.getLast?_cons_cons]
    linarith [hpq.2]

lemma lutInterp_some_le_lastSnd (l : List (ℚ × ℚ)) : ∀ (p : ℚ × ℚ) (x v : ℚ),
    LutSorted (p :: l) → lutInterp (p :: l) x = some v → v ≤ lutLastSnd (p :: l) := by
  induction l with
  | nil => intro p x v _ h; simp [lutInterp] at h
  | cons q rest ih =>
    intro p x v hs h
    have hpq : p.1 < q.1 ∧ p.2 ≤ q.2 := (List.pairwise_cons.mp hs).1 q (by simp)
    rw [lutLastSnd, List.getLast?_cons_cons]
    rw [lutInterp] at h
    by_cases hbr : p.1 ≤ x ∧ x ≤ q.1
    · rw [if_pos hbr, if_pos (by exact ne_of_gt hpq.1)] at h
      have hden : (0 : ℚ) < q.1 - p.1 := by linarith [hpq.1]
      have hrat : (x - p.1) / (q.1 - p.1) ≤ 1 :=
        (div_le_one hden).mpr (by linarith [hbr.2])
      have hmul : (x - p.1) / (q.1 - p.1) * (q.2 - p.2) ≤ q.2 - p.2 :=
        mul_le_of_le_one_left (by linarith [hpq.2]) hrat
      rw [Option.some.injEq] at h
      have hlast := headSnd_le_lutLastSnd rest q hs.of_cons
      rw [lutLastSnd] at hlast
      linarith [hmul, hlast]
    · rw [if_neg hbr] at h
      have := ih q x v hs.of_cons h
      rw [lutLastSnd] at this
      exact this

lemma lutInterp_isSome (l : List (ℚ × ℚ)) : ∀ (p q : ℚ × ℚ) (x : ℚ),
    LutSorted (p :: q :: l) → p.1 ≤ x → x ≤ lutLastFst (p :: q :: l) →
    ∃ v, lutInterp (p :: q :: l) x = some v := by
  induction l with
  | nil =>
    intro p q x _ h1 h2
    rw [lutLastFst] at h2
    simp only [List.getLast?_cons_cons] at h2
    have h2' : x ≤ q.1 := by simpa using h2
    refine ⟨p.2 + (if q.1 ≠ p.1 then (x - p.1) / (q.1 - p.1) else 0) * (q.2 - p.2), ?_⟩
    rw [lutInterp, if_pos ⟨h1, h2'⟩]
  | cons r rest ih =>
    intro p q x hs h1 h2
    by_cases hbr : p.1 ≤ x ∧ x ≤ q.1
    · exact ⟨_, by rw [lutInterp, if_pos hbr]⟩
    · have hq : q.1 ≤ x := by
        rcases not_and_or.mp hbr with h | h
        · exact absurd h1 h
        · linarith [lt_of_not_le h]
      rw [lutLastFst, List.getLast?_cons_cons] at h2
      obtain ⟨v, hv⟩ := ih q r x hs.of_cons hq (by rw [lutLastFst]; exact h2)
      exact ⟨v, by rw [lutInterp, if_neg hbr]; exact hv⟩

lemma lutInterp_mono (l : List (ℚ × ℚ)) : ∀ (p : ℚ × ℚ) (a b v w : ℚ),
    LutSorted (p :: l) → a ≤ b →
    lutInterp (p :: l) a = some v → lutInterp (p :: l) b = some w → v ≤ w := by
  induction l with
  | nil => intro p a b v w _ _ ha _; simp [lutInterp] at ha
  | cons q rest ih =>
    intro p a b v w hs hab ha hb
    have hpq : p.1 < q.1 ∧ p.2 ≤ q.2 := (List.pairwise_cons.mp hs).1 q (by simp)
    have hden : (0 : ℚ) < q.1 - p.1 := by linarith [hpq.1]
    rw [lutInterp] at ha hb
    by_cases hbra : p.1 ≤ a ∧ a ≤ q.1
    · rw [if_pos hbra, if_pos (by exact ne_of_gt hpq.1), Option.some.injEq] at ha
      by_cases hbrb : p.1 ≤ b ∧ b ≤ q.1
      · rw [if_pos hbrb, if_pos (by exact ne_of_gt hpq.1), Option.some.injEq] at hb
        have hr : (a - p.1) / (q.1 - p.1) ≤ (b - p.1) / (q.1 - p.1) :=
          (div_le_div_iff_of_pos_right hden).mpr (by linarith)
        have hm : (a - p.1) / (q.1 - p.1) * (q.2 - p.2) ≤ (b - p.1) / (q.1 - p.1) * (q.2 - p.2) :=
          mul_le_mul_of_nonneg_right hr (by linarith [hpq.2])
        linarith [hm]
      · rw [if_neg hbrb] at hb
        have hw : q.2 ≤ w := lutInterp_some_ge_headSnd rest q b w hs.of_cons hb
        have hrat : (a - p.1) / (q.1 - p.1) ≤ 1 := (div_le_one hden).mpr (by linarith [hbra.2])
        have hv : v ≤ q.2 := by
          have := mul_le_of_le_one_left (by linarith [hpq.2] : (0:ℚ) ≤ q.2 - p.2) hrat
          linarith
        linarith
    · rw [if_neg hbra] at ha
      have hqa : q.1 ≤ a := lutInterp_some_head_le rest q a v hs.of_cons ha
      have hbrb : ¬(p.1 ≤ b ∧ b ≤ q.1) := by
        intro hbb
        have hba : b = a := le_antisymm (by linarith [hbb.2]) hab
        exact hbra (hba ▸ hbb)
      rw [if_neg hbrb] at hb
      exact ih q a b v w hs.of_cons hab ha hb

lemma lutInterp_segment (l1 : List (ℚ × ℚ)) : ∀ (l l2 : List (ℚ × ℚ)) (p q : ℚ × ℚ) (x : ℚ),
    LutSorted l → l = l1 ++ p :: q :: l2 → p.1 ≤ x → x ≤ q.1 →
    lutInterp l x = some (p.2 + (x - p.1) / (q.1 - p.1) * (q.2 - p.2)) := by
  induction l1 with
  | nil =>
    intro l l2 p q x hs heq h1 h2
    subst heq
    simp only [List.nil_append] at hs ⊢
    have hpq : p.1 < q.1 := ((List.pairwise_cons.mp hs).1 q (by simp)).1
    rw [lutInterp, if_pos ⟨h1, h2⟩, if_pos (by exact ne_of_gt hpq)]
  | cons a l1' ih =>
    intro l l2 p q x hs heq h1 h2
    subst heq
    simp only [List.cons_append] at hs ⊢
    have hs' : LutSorted (l1' ++ p :: q :: l2) := hs.of_cons
    cases hl1 : l1' with
    | nil =>
      subst hl1
      simp only [List.nil_append] at hs' ⊢
      have hap : a.1 < p.1 := ((List.pairwise_cons.mp hs).1 p (by simp)).1
      by_cases hbr : a.1 ≤ x ∧ x ≤ p.1
      · have hxp : x = p.1 := le_antisymm hbr.2 h1
        rw [lutInterp, if_pos hbr, if_pos (by exact ne_of_gt hap)]
        subst hxp
        congr 1
        rw [div_self (by exact ne_of_gt (by linarith : (0:ℚ) < p.1 - a.1))]
        ring
      · rw [lutInterp, if_neg hbr]
        exact ih (p :: q :: l2) l2 p q x hs' rfl h1 h2
    | cons c l1'' =>
      subst hl1
      simp only [List.cons_append] at hs' ⊢
      have hcp : c.1 < p.1 := ((List.pairwise_cons.mp hs').1 p (by simp)).1
      by_cases hbr : a.1 ≤ x ∧ x ≤ c.1
      · exact absurd h1 (by linarith [hbr.2])
      · rw [lutInterp, if_neg hbr]
        exact ih (c :: (l1'' ++ p :: q :: l2)) l2 p q x hs' (by simp) h1 h2

lemma calibrate_lut_of_some {l : List (ℚ × ℚ)} {x v : ℚ}
    (h : lutInterp l x = some v) : calibrate_lut l x = v := by
  simp [calibrate_lut, h]

lemma clamp01_nonneg (x : ℚ) : 0 ≤ clamp01 x := le_max_left _ _

lemma clamp01_le_one (x : ℚ) : clamp01 x ≤ 1 :=
  max_le (by norm_num) (min_le_left _ _)

lemma clamp01_mono {x y : ℚ} (h : x ≤ y) : clamp01 x ≤ clamp01 y :=
  max_le_max le_rfl (min_le_min le_rfl h)

lemma ratTrunc_mono_of_nonneg {a b : ℚ} (ha : 0 ≤ a) (h : a ≤ b) :
    ratTrunc a ≤ ratTrunc b := by
  rw [ratTrunc, ratTrunc, if_pos ha, if_pos (ha.trans h)]
  exact Int.floor_mono h

lemma lutInterp_calibration_bounds {x v : ℚ}
    (h : lutInterp calibration_lut x = some v) : 1/20 ≤ v ∧ v ≤ 19/20 := by
  have hsorted := calibration_lut_sorted
  unfold calibration_lut at h
  constructor
  · have hh := lutInterp_some_ge_headSnd _ _ x v hsorted h
    norm_num at hh
    linarith
  · have hh := lutInterp_some_le_lastSnd _ _ x v hsorted h
    rw [lutLastSnd] at hh
    norm_num at hh
    linarith

lemma calibrate_brightness_of_segment (x : ℚ) (l1 : List (ℚ × ℚ)) (p q : ℚ × ℚ)
    (l2 : List (ℚ × ℚ)) (heq : calibration_lut = l1 ++ p :: q :: l2)
    (h1 : p.1 ≤ clamp01 x) (h2 : clamp01 x ≤ q.1) :
    calibrate_brightness x =
      ratTrunc ((p.2 + (clamp01 x - p.1) / (q.1 - p.1) * (q.2 - p.2)) * 100) := by
  have hseg := lutInterp_segment l1 calibration_lut l2 p q (clamp01 x)
    calibration_lut_sorted heq h1 h2
  have hb := lutInterp_calibration_bounds hseg
  rw [calibrate_brightness, calibrate_lut_of_some hseg]
  congr 1
  rw [min_eq_right (by linarith [hb.2]), max_eq_right (by linarith [hb.1])]

/-- **C1**: in lookup-table mode `calibrate_brightness` first clamps its input
to `[0, 1]`; on any table segment `[x1, x2]` bracketing the clamped input it
returns the linear interpolation `y1 + ((x - x1) / (x2 - x1)) * (y2 - y1)` of
the segment's target values scaled to a percentage (converted to `int`); a
clamped input at or before the first breakpoint yields the first breakpoint's
target and one at or after the last breakpoint yields the last breakpoint's
target, likewise scaled. -/
theorem calibrate_brightness_lut_correct (x : ℚ) :
    (∀ (l1 : List (ℚ × ℚ)) (p q : ℚ × ℚ) (l2 : List (ℚ × ℚ)),
        calibration_lut = l1 ++ p :: q :: l2 →
        p.1 ≤ clamp01 x → clamp01 x ≤ q.1 →
        calibrate_brightness x =
          ratTrunc ((p.2 + (clamp01 x - p.1) / (q.1 - p.1) * (q.2 - p.2)) * 100)) ∧
    (clamp01 x ≤ ((calibration_lut (α := ℚ)).head?.getD (0, 0)).1 →
        calibrate_brightness x =
          ratTrunc (((calibration_lut (α := ℚ)).head?.getD (0, 0)).2 * 100)) ∧
    (((calibration_lut (α := ℚ)).getLast?.getD (0, 0)).1 ≤ clamp01 x →
        calibrate_brightness x =
          ratTrunc (((calibration_lut (α := ℚ)).getLast?.getD (0, 0)).2 * 100)) := by
  refine ⟨fun l1 p q l2 heq h1 h2 => calibrate_brightness_of_segment x l1 p q l2 heq h1 h2,
    ?_, ?_⟩
  · intro h
    have hhead : ((calibration_lut (α := ℚ)).head?.getD (0, 0)) = (0, 5/100) := rfl
    rw [hhead] at h ⊢
    have hx0 : clamp01 x = 0 := le_antisymm (by simpa using h) (clamp01_nonneg x)
    have hstep := calibrate_brightness_of_segment x [] (0, 5/100) (5/100, 10/100)
      [(1/10, 18/100), (2/10, 32/100), (3/10, 45/100), (4/10, 58/100), (5/10, 68/100),
       (6/10, 75/100), (7/10, 82/100), (8/10, 88/100), (9/10, 92/100), (1, 95/100)]
      (by simp [calibration_lut]) (by rw [hx0]) (by rw [hx0]; norm_num)
    rw [hstep, hx0]
    congr 1
    norm_num
  · intro h
    have hlast : ((calibration_lut (α := ℚ)).getLast?.getD (0, 0)) = (1, 95/100) := rfl
    rw [hlast] at h ⊢
    have hx1 : clamp01 x = 1 := le_antisymm (clamp01_le_one x) (by simpa using h)
    have hstep := calibrate_brightness_of_segment x
      [(0, 5/100), (5/100, 10/100), (1/10, 18/100), (2/10, 32/100), (3/10, 45/100),
       (4/10, 58/100), (5/10, 68/100), (6/10, 75/100), (7/10, 82/100), (8/10, 88/100)]
      (9/10, 92/100) (1, 95/100) []
      (by simp [calibration_lut]) (by rw [hx1]; norm_num) (by rw [hx1])
    rw [hstep, hx1]
    congr 1
    norm_num

/-- Witness for C1: the input `0.25` falls in the table segment
`(0.2, 0.32) – (0.3, 0.45)` and is interpolated to `int(38.5) = 38`. -/
theorem calibrate_brightness_lut_correct_witness : calibrate_brightness (1/4) = 38 := by
  have h := (calibrate_brightness_lut_correct (1/4)).1
    [(0, 5/100), (5/100, 10/100), (1/10, 18/100)] (2/10, 32/100) (3/10, 45/100)
    [(4/10, 58/100), (5/10, 68/100), (6/10, 75/100), (7/10, 82/100), (8/10, 88/100),
     (9/10, 92/100), (1, 95/100)]
    (by simp [calibration_lut]) (by norm_num [clamp01]) (by norm_num [clamp01])
  rw [h]
  norm_num [clamp01, ratTrunc]

lemma realTrunc_clamp_range (r : ℝ) :
    5 ≤ realTrunc (max 5 (min 95 r)) ∧ realTrunc (max 5 (min 95 r)) ≤ 95 := by
  have h5 : (5 : ℝ) ≤ max 5 (min 95 r) := le_max_left _ _
  have h95 : max 5 (min 95 r) ≤ 95 := max_le (by norm_num) (min_le_left _ _)
  rw [realTrunc, if_pos (by linarith : (0 : ℝ) ≤ max 5 (min 95 r))]
  constructor
  · exact Int.le_floor.mpr (by exact_mod_cast h5)
  · have hle : (⌊max 5 (min 95 r)⌋ : ℝ) ≤ 95 := le_trans (Int.floor_le _) h95
    exact_mod_cast hle

/-- **C2**: for every input in `[0, 1]` and every configured curve mode, the
result of `calibrate_brightness` lies in the configured range
`[min_brightness, max_brightness] = [5, 95]`. -/
theorem calibrate_brightness_curve_in_range (curve : BrightnessCurve) (x : ℝ)
    (h0 : 0 ≤ x) (h1 : x ≤ 1) :
    5 ≤ calibrate_brightness_curve curve x ∧ calibrate_brightness_curve curve x ≤ 95 := by
  cases curve <;> exact realTrunc_clamp_range _

/-- Witness for C2: the `lut` mode at input `0`. -/
theorem calibrate_brightness_curve_in_range_witness :
    5 ≤ calibrate_brightness_curve BrightnessCurve.lut 0 ∧
      calibrate_brightness_curve BrightnessCurve.lut 0 ≤ 95 :=
  calibrate_brightness_curve_in_range BrightnessCurve.lut 0 le_rfl zero_le_one

lemma lutInterp_calibration_isSome (x : ℚ) (h0 : 0 ≤ x) (h1 : x ≤ 1) :
    ∃ v, lutInterp calibration_lut x = some v := by
  unfold calibration_lut
  refine lutInterp_isSome _ _ _ x calibration_lut_sorted (by norm_num; linarith) ?_
  rw [lutLastFst]
  simp only [List.getLast?_cons_cons, List.getLast?_singleton, Option.getD_some]
  linarith

lemma lutInterp_calibration_mono {a b va vb : ℚ} (hab : a ≤ b)
    (ha : lutInterp calibration_lut a = some va)
    (hb : lutInterp calibration_lut b = some vb) : va ≤ vb := by
  unfold calibration_lut at ha hb
  exact lutInterp_mono _ _ a b va vb calibration_lut_sorted hab ha hb

/-- **C3**: in lookup-table mode `calibrate_brightness` is monotonically
non-decreasing. -/
theorem calibrate_brightness_monotone (x y : ℚ) (h : x ≤ y) :
    calibrate_brightness x ≤ calibrate_brightness y := by
  obtain ⟨va, hva⟩ := lutInterp_calibration_isSome (clamp01 x) (clamp01_nonneg x) (clamp01_le_one x)
  obtain ⟨vb, hvb⟩ := lutInterp_calibration_isSome (clamp01 y) (clamp01_nonneg y) (clamp01_le_one y)
  have hv := lutInterp_calibration_mono (clamp01_mono h) hva hvb
  rw [calibrate_brightness, calibrate_brightness,
    calibrate_lut_of_some hva, calibrate_lut_of_some hvb]
  apply ratTrunc_mono_of_nonneg
  · have h5 : (5 : ℚ) ≤ max 5 (min 95 (va * 100)) := le_max_left _ _
    linarith
  · exact max_le_max le_rfl (min_le_min le_rfl (by linarith))

/-- Witness for C3: `0 ≤ 1/2`. -/
theorem calibrate_brightness_monotone_witness :
    calibrate_brightness 0 ≤ calibrate_brightness (1/2) :=
  calibrate_brightness_monotone 0 (1/2) (by norm_num)

/-- **C4**: in lookup-table mode, `calibrate_brightness 0.0` is the table's
first breakpoint target and `calibrate_brightness 1.0` the last breakpoint
target, scaled to a percentage and clamped to the configured floor/ceiling:
`5` and `95` respectively. -/
theorem calibrate_brightness_endpoints :
    calibrate_brightness 0 =
      ratTrunc (max 5 (min 95 (((calibration_lut (α := ℚ)).head?.getD (0, 0)).2 * 100))) ∧
    calibrate_brightness 0 = 5 ∧
    calibrate_brightness 1 =
      ratTrunc (max 5 (min 95 (((calibration_lut (α := ℚ)).getLast?.getD (0, 0)).2 * 100))) ∧
    calibrate_brightness 1 = 95 := by
  refine ⟨?_, ?_, ?_, ?_⟩ <;>
    norm_num [calibrate_brightness, calibrate_lut, calibration_lut, lutInterp, clamp01, ratTrunc]

/-- Counterexample for C5 as stated: when the freshly read current brightness
already equals the target, `_smooth_brightness_change` returns early and
applies nothing at all, so the transition does not finish by applying the
exact target. -/
theorem smoothApplied_counterexample :
    smoothApplied 50 50 = [] ∧ (smoothApplied 50 50).getLast? ≠ some 50 := by
  constructor
  · simp [smoothApplied]
  · simp [smoothApplied]

/-- **C5** (amended to `current ≠ target`): the smooth transition applies the
equal-sized intermediate steps `int(current + (target - current)/steps * (i+1))`,
each clamped to `[1, 100]`, and finishes by applying the exact target. -/
theorem smoothApplied_spec (current target : ℤ) (h : current ≠ target) :
    smoothApplied current target =
      smoothSteps current target transition_steps ++ [target] ∧
    (smoothApplied current target).getLast? = some target ∧
    (∀ v ∈ smoothSteps current target transition_steps, 1 ≤ v ∧ v ≤ 100) ∧
    (∀ i, i < transition_steps →
      (smoothSteps current target transition_steps)[i]? =
        some (max 1 (min 100 (ratTrunc ((current : ℚ) +
          ((target : ℚ) - (current : ℚ)) / (transition_steps : ℚ) * ((i : ℚ) + 1)))))) := by
  refine ⟨by simp [smoothApplied, h], ?_, ?_, ?_⟩
  · rw [smoothApplied, if_neg h]
    exact List.getLast?_concat _
  · intro v hv
    rw [smoothSteps] at hv
    obtain ⟨i, _, hi⟩ := List.mem_map.mp hv
    constructor
    · rw [← hi]; exact le_max_left _ _
    · rw [← hi]; exact max_le (by norm_num) (min_le_left _ _)
  · intro i hi
    rw [smoothSteps, List.getElem?_map, List.getElem?_range hi, Option.map_some']

/-- Witness for C5: the transition from 20 to 80 ends by applying exactly 80,
and every intermediate value lies within `[1, 100]`. -/
theorem smoothApplied_spec_witness :
    (smoothApplied 20 80).getLast? = some 80 ∧
    ∀ v ∈ smoothSteps 20 80 transition_steps, 1 ≤ v ∧ v ≤ 100 :=
  ⟨(smoothApplied_spec 20 80 (by decide)).2.1, (smoothApplied_spec 20 80 (by decide)).2.2.1⟩

/-- **C6**: the configured windows are tested in a fixed order with the night
window matching as a wrap-around interval (`now >= start or now <= end`) and
the matched window's level brightness returned; at 23:00 (82800 s) the night
window's level is returned, at 12:00 (43200 s) the day window's level; when no
window matches, the `'normal'` level's brightness is returned. -/
theorem get_time_based_brightness_spec (now : ℕ) :
    ((22 * 3600 ≤ now ∨ now ≤ 6 * 3600) →
      get_time_based_brightness now = get_brightness_for_level "very_dark") ∧
    get_time_based_brightness 82800 = get_brightness_for_level "very_dark" ∧
    get_time_based_brightness 43200 = get_brightness_for_level "bright" ∧
    timeBasedGo now [] = get_brightness_for_level "normal" := by
  refine ⟨?_, ?_, ?_, rfl⟩
  · intro h
    rw [get_time_based_brightness, time_based_brightness_config, timeBasedGo,
      if_pos rfl, if_pos h]
  · rw [get_time_based_brightness, time_based_brightness_config, timeBasedGo,
      if_pos rfl, if_pos (by norm_num : 22 * 3600 ≤ 82800 ∨ 82800 ≤ 6 * 3600)]
  · rw [get_time_based_brightness, time_based_brightness_config]
    rw [timeBasedGo, if_pos rfl,
      if_neg (by norm_num : ¬(22 * 3600 ≤ 43200 ∨ 43200 ≤ 6 * 3600))]
    rw [timeBasedGo, if_neg (by decide : ¬("evening" : String) = "night"),
      if_neg (by norm_num : ¬(18 * 3600 ≤ 43200 ∧ 43200 ≤ 22 * 3600))]
    rw [timeBasedGo, if_neg (by decide : ¬("morning" : String) = "night"),
      if_neg (by norm_num : ¬(6 * 3600 ≤ 43200 ∧ 43200 ≤ 9 * 3600))]
    rw [timeBasedGo, if_neg (by decide : ¬("day" : String) = "night"),
      if_pos (by norm_num : 9 * 3600 ≤ 43200 ∧ 43200 ≤ 18 * 3600)]

/-- Witness for C6: 23:00 falls in the wrap-around night window. -/
theorem get_time_based_brightness_spec_witness :
    get_time_based_brightness 82800 = get_brightness_for_level "very_dark" :=
  (get_time_based_brightness_spec 82800).1 (Or.inl (by norm_num))

/-- **C7**: for every configured level name `get_brightness_for_level` returns
the integer midpoint `(min + max) // 2` (Python floor division) of the level's
range; for every unconfigured name it returns `50`. -/
theorem get_brightness_for_level_spec :
    (∀ (name : String) (mn mx : ℤ), (name, mn, mx) ∈ brightness_ranges →
      get_brightness_for_level name = Int.fdiv (mn + mx) 2) ∧
    (∀ name : String, name ∉ brightness_ranges.map Prod.fst →
      get_brightness_for_level name = 50) := by
  constructor
  · intro name mn mx h
    fin_cases h <;> rfl
  · intro name h
    simp only [brightness_ranges, List.map_cons, List.map_nil, List.mem_cons,
      List.not_mem_nil, or_false, not_or] at h
    obtain ⟨h1, h2, h3, h4, h5, h6⟩ := h
    simp [get_brightness_for_level, lookupRange, brightness_ranges, h1, h2, h3, h4, h5, h6]

/-- Witness for C7: the configured `dim` level and an unconfigured name. -/
theorem get_brightness_for_level_spec_witness :
    get_brightness_for_level "dim" = Int.fdiv (30 + 50) 2 ∧
    get_brightness_for_level "predawn" = 50 :=
  ⟨get_brightness_for_level_spec.1 "dim" 30 50 (by simp [brightness_ranges]),
   get_brightness_for_level_spec.2 "predawn" (by simp [brightness_ranges])⟩

/-- **C8**: a failing or valueless OS brightness read yields the default `50`
from `get_current_brightness`; a failing OS brightness set inside
`set_brightness` re-raises the exception to the caller (on the non-smooth
path, and on the smooth path whenever a set call is actually issued). -/
theorem error_handling_spec :
    get_current_brightness SbcGet.err = 50 ∧
    get_current_brightness SbcGet.noneVal = 50 ∧
    get_current_brightness (SbcGet.listVal []) = 50 ∧
    (∀ (env : OsEnv) (st target : ℤ), env.setRaises = true →
      set_brightness env st target false = Except.error ()) ∧
    (∀ (env : OsEnv) (st target : ℤ), env.setRaises = true →
      get_current_brightness env.readResult ≠ max 1 (min 100 target) →
      set_brightness env st target true = Except.error ()) := by
  refine ⟨rfl, rfl, rfl, ?_, ?_⟩
  · intro env st target h
    simp [set_brightness, h]
  · intro env st target h hneq
    simp [set_brightness, smooth_transition_config, smooth_brightness_change, h, hneq]

/-- Witness for C8: an environment whose set call raises, with a target of 200
(clamped to 100) and a read of 50. -/
theorem error_handling_spec_witness :
    set_brightness ⟨SbcGet.err, true⟩ 50 200 false = Except.error () ∧
    set_brightness ⟨SbcGet.err, true⟩ 50 200 true = Except.error () :=
  ⟨error_handling_spec.2.2.2.1 ⟨SbcGet.err, true⟩ 50 200 rfl,
   error_handling_spec.2.2.2.2 ⟨SbcGet.err, true⟩ 50 200 rfl (by decide)⟩

/-- **C9**: a smooth `set_brightness` whose freshly read OS brightness already
equals the clamped target returns immediately: no set call is issued and the
stored `current_brightness` keeps its old value `st` (which may differ from
the target, as in the concrete instance `st = 30`, target `80`); on every
other success path the stored `current_brightness` equals the clamped
target. -/
theorem set_brightness_state_spec :
    (∀ (env : OsEnv) (st target : ℤ),
      get_current_brightness env.readResult = max 1 (min 100 target) →
      set_brightness env st target true = Except.ok (st, [])) ∧
    set_brightness ⟨SbcGet.intVal 80, false⟩ 30 80 true = Except.ok (30, []) ∧
    (∀ (env : OsEnv) (st target : ℤ) (smooth : Bool) (st' : ℤ) (applied : List ℤ),
      set_brightness env st target smooth = Except.ok (st', applied) →
      st' = max 1 (min 100 target) ∨
        (smooth = true ∧ get_current_brightness env.readResult = max 1 (min 100 target) ∧
          st' = st ∧ applied = [])) := by
  refine ⟨?_, ?_, ?_⟩
  · intro env st target h
    simp [set_brightness, smooth_transition_config, smooth_brightness_change, h]
  · rfl
  · intro env st target smooth st' applied h
    cases smooth with
    | false =>
      rw [set_brightness] at h
      simp only [Bool.false_and, if_false] at h
      cases henv : env.setRaises with
      | true => rw [henv] at h; simp at h
      | false =>
        rw [henv] at h
        simp only [if_neg Bool.false_ne_true] at h
        left
        exact (Prod.mk.injEq _ _ _ _ ▸ (Except.ok.injEq _ _ ▸ h)).1.symm
    | true =>
      rw [set_brightness] at h
      simp only [smooth_transition_config, Bool.and_self, if_true] at h
      rw [smooth_brightness_change] at h
      by_cases hc : get_current_brightness env.readResult = max 1 (min 100 target)
      · rw [if_pos hc] at h
        simp only [Except.ok.injEq, Prod.mk.injEq] at h
        exact Or.inr ⟨rfl, hc, h.1.symm, h.2.symm⟩
      · rw [if_neg hc] at h
        cases henv : env.setRaises with
        | true => rw [henv] at h; simp at h
        | false =>
          rw [henv] at h
          simp only [if_neg Bool.false_ne_true, Except.ok.injEq, Prod.mk.injEq] at h
          exact Or.inl h.1.symm

/-- Witness for C9: a smooth call that finds the OS already at the clamped
target (read `80`, stored field `30`, target `80`) leaves the stored field at
`30` and applies nothing. -/
theorem set_brightness_state_spec_witness :
    set_brightness ⟨SbcGet.intVal 80, false⟩ 30 80 true = Except.ok (30, []) :=
  set_brightness_state_spec.1 ⟨SbcGet.intVal 80, false⟩ 30 80 (by decide)

/-- **C10**: in the numeric branch of `POST /brightness`, a value `≤ 1` is
passed to calibration as a fraction and a value `> 1` is divided by 100
first: the inputs `1` and `100` both map to full brightness (95), the input
`2` means 2 % (mapping to 7), and just above the boundary `1.01` maps to 6 —
a discontinuous drop from 95. -/
theorem route_brightness_value_spec :
    route_brightness_value 1 = 95 ∧
    route_brightness_value 100 = 95 ∧
    route_brightness_value 2 = calibrate_brightness (2 / 100) ∧
    route_brightness_value 2 = 7 ∧
    route_brightness_value (101 / 100) = 6 := by
  refine ⟨?_, ?_, ?_, ?_, ?_⟩ <;>
    norm_num [route_brightness_value, calibrate_brightness, calibrate_lut,
      calibration_lut, lutInterp, clamp01, ratTrunc]
